import Mathlib

/-!
# mpi_timing: ring round-trip latency benchmark

A shallow embedding of `src/mpi_timing.c` and the properties of it that the
specification states.

Conventions of the embedding

* C `int` values are `Int`, C `unsigned int` values are `Nat`; the conversions
  between the two and the wrap-around of 32-bit arithmetic are explicit
  (`toInt32`, `toUInt32`, `% 2 ^ 32`).
* Loops of the source that are not structurally bounded take a fuel argument
  and return `Option`; `none` means the fuel ran out.
* `double` values are finite in every place the embedding looks at them and are
  represented by exact rationals `ℚ`.
* Calls into the MPI library are the nodes of a process term (`Proc`): every
  blocking call is a node whose continuation receives what the library hands
  back.  The calls to `clock_gettime` and `tlog_timespec_sub` that surround
  them only measure real time and are left out.
-/

namespace MpiTiming

/-! ## Machine integers -/

/-- Conversion of an integer to the C type `int` (32 bit, two's complement). -/
def toInt32 (x : Int) : Int := (x + 2 ^ 31) % 2 ^ 32 - 2 ^ 31

/-- Conversion of an integer to the C type `unsigned int` (32 bit). -/
def toUInt32 (x : Int) : Nat := (x % 2 ^ 32).toNat

/-! ## Constants of the source -/

def MAGIC_START : Int := 232323
def MAGIC_END : Int := 424242
def MAGIC_ID : Int := 123123

def EXIT_SUCCESS : Int := 0
def EXIT_FAILURE : Int := 1

/-! ## `int_pow` -/

/-- The `for(;;)` loop of `int_pow`, one iteration per unit of fuel:
`if (exp & 1) result *= base; exp >>= 1; if (!exp) break; base *= base;`.
For a negative `exp` the arithmetic shift never reaches zero and the loop of
the source does not end; here the fuel runs out. -/
def int_pow_loop : Nat → Int → Int → Int → Option Int
  | 0, _, _, _ => none
  | fuel + 1, base, exp, result =>
    let result1 := if exp % 2 ≠ 0 then toInt32 (result * base) else result
    let exp1 := exp / 2
    if exp1 = 0 then some result1
    else int_pow_loop fuel (toInt32 (base * base)) exp1 result1

/-- The function `int_pow(base, exp)`: `result` starts at 1.  A non-negative `int`
exponent is shifted to zero in at most 32 iterations. -/
def int_pow (base exp : Int) : Option Int := int_pow_loop 32 base exp 1

/-! ## Settings and the command line -/

inductive run_mode
  | round_trip
  | round_trip_msg_size
  | round_trip_wait
  | round_trip_sync
  deriving DecidableEq, Repr

/-- The structure `struct settings`.  The source assigns `mysettings.wait` in
`parse_cmdline`, so the field is part of the model although the structure
declaration of the source does not list it. -/
structure settings where
  nr_runs : Nat
  fill_random : Nat
  mode : run_mode
  wait : Int
  deriving DecidableEq, Repr

/-- The digits loop of the C library function `atoi`. -/
def atoi_digits : List Char → Int → Int
  | [], acc => acc
  | c :: cs, acc =>
    if c.isDigit then atoi_digits cs (acc * 10 + ((c.toNat : Int) - 48)) else acc

/-- The C library function `atoi`: leading white space, an optional sign, then
decimal digits; the value is converted to `int`. -/
def atoi (s : String) : Int :=
  match s.toList.dropWhile Char.isWhitespace with
  | '-' :: rest => toInt32 (- atoi_digits rest 0)
  | '+' :: rest => toInt32 (atoi_digits rest 0)
  | cs => toInt32 (atoi_digits cs 0)

/-- One result of `getopt(argc, argv, "rhs:t:w:")`: the option character and,
for `s`, `t` and `w`, the text of `optarg`.  An option that is not in the
option string is reported as `?`. -/
structure getopt_result where
  opt : Char
  optarg : String
  deriving DecidableEq, Repr

/-- What `parse_cmdline` leaves behind: either the process has exited (through
`usage`), or the settings are returned and the generator of `rand` has been
seeded. -/
inductive parse_result
  | exited (status : Int)
  | parsed (mysettings : settings) (seed : Nat)
  deriving DecidableEq, Repr

/-- The `while`/`switch` loop of `parse_cmdline` over the results of `getopt`.
The case `h` calls `usage`, which ends in `exit(EXIT_SUCCESS)`; a character
without a case leaves everything unchanged. -/
def parse_options : List getopt_result → settings → Nat → parse_result
  | [], mysettings, seed => parse_result.parsed mysettings seed
  | o :: os, mysettings, seed =>
    if o.opt = 'r' then parse_options os { mysettings with fill_random := 1 } seed
    else if o.opt = 'h' then parse_result.exited EXIT_SUCCESS
    else if o.opt = 's' then parse_options os mysettings (toUInt32 (atoi o.optarg))
    else if o.opt = 't' then
      parse_options os { mysettings with nr_runs := toUInt32 (atoi o.optarg) } seed
    else if o.opt = 'w' then parse_options os { mysettings with wait := atoi o.optarg } seed
    else parse_options os mysettings seed

/-- The body of the loop `for(; optind < argc; optind++)` of `parse_cmdline`
for one positional argument: four `strcmp` tests in the order of the source,
each with the assignment the source makes. -/
def parse_positional (mysettings : settings) (arg : String) : settings :=
  let s1 := if arg = "round_trip" then { mysettings with mode := run_mode.round_trip }
            else mysettings
  let s2 := if arg = "round_trip_msg_size" then { s1 with mode := run_mode.round_trip_msg_size }
            else s1
  let s3 := if arg = "round_trip_sync" then { s2 with mode := run_mode.round_trip_wait }
            else s2
  let s4 := if arg = "round_trip_wait" then { s3 with mode := run_mode.round_trip_sync }
            else s3
  s4

/-- The function `parse_cmdline`.  The iteration of `getopt` over `argv` is
given by the list of its results `opts` and by the arguments it leaves,
`argv[optind .. argc-1]`, in `positional`.  Defaults: 1000 runs, no random
fill, mode `round_trip`, wait 20, seed 42. -/
def parse_cmdline (opts : List getopt_result) (positional : List String) : parse_result :=
  match parse_options opts
      { nr_runs := 1000, fill_random := 0, mode := run_mode.round_trip, wait := 20 } 42 with
  | parse_result.exited status => parse_result.exited status
  | parse_result.parsed mysettings seed =>
    parse_result.parsed (positional.foldl parse_positional mysettings) seed

/-- The mode of the settings `parse_cmdline` returns, if it returns. -/
def parsed_mode : parse_result → Option run_mode
  | parse_result.exited _ => none
  | parse_result.parsed mysettings _ => some mysettings.mode

/-! ## The sweep over message sizes -/

/-- The head of the loop `for(unsigned int i = 4; i <= 14;)` of `main`: the
update of `pkg_size` and `i` that precedes the trials of one iteration.  The
result lists the value of `pkg_size` with which the body of each iteration
runs. -/
def sweep_loop : Nat → Nat → Nat → Option (List Nat)
  | 0, _, _ => none
  | fuel + 1, pkg_size, i =>
    if i ≤ 14 then
      match int_pow 2 (toInt32 i) with
      | none => none
      | some p =>
        if pkg_size < toUInt32 p then
          (sweep_loop fuel (toUInt32 p) i).map (fun rest => toUInt32 p :: rest)
        else
          match int_pow 2 (toInt32 ((i : Int) + 1)) with
          | none => none
          | some q =>
            let pkg_size1 := (pkg_size + toUInt32 q) % 2 ^ 32 / 2
            (sweep_loop fuel pkg_size1 ((i + 1) % 2 ^ 32)).map (fun rest => pkg_size1 :: rest)
    else some []

/-- The message sizes of the sweep of `main`: `pkg_size = 2`, `i = 4` at the
start. -/
def sweep_sizes : Option (List Nat) := sweep_loop 64 2 4

/-! ## Processes and the message-passing library -/

/-- The arguments of the call
`fprintf(stderr, "Messages sizes differs on rank %i: %i <-> %i\n", world_rank, msg_size_status, msg_size)`. -/
structure size_diag where
  world_rank : Nat
  msg_size_status : Int
  msg_size : Nat
  deriving DecidableEq, Repr

/-- A process as the tree of its calls.  A blocking call of the library is a
node; its continuation takes what the call hands back: the receive buffer after
`MPI_Recv`, the element count of `MPI_Get_count` after `MPI_Probe`. -/
inductive Proc (α : Type) : Type
  | ret (a : α) : Proc α
  | assert_fail : Proc α
  | exit (status : Int) : Proc α
  | fprintf_stderr (d : size_diag) (k : Proc α) : Proc α
  | send (buf : List Int) (count : Nat) (dest : Nat) (msg_id : Int) (k : Proc α) : Proc α
  | recv (buf : List Int) (count : Nat) (source : Nat) (msg_id : Int)
      (k : List Int → Proc α) : Proc α
  | probe (source : Nat) (msg_id : Int) (k : Int → Proc α) : Proc α

/-- Sequential composition: what follows a call that ends the process is never
run. -/
def Proc.bind {α β : Type} : Proc α → (α → Proc β) → Proc β
  | Proc.ret a, f => f a
  | Proc.assert_fail, _ => Proc.assert_fail
  | Proc.exit status, _ => Proc.exit status
  | Proc.fprintf_stderr d k, f => Proc.fprintf_stderr d (k.bind f)
  | Proc.send buf count dest msg_id k, f => Proc.send buf count dest msg_id (k.bind f)
  | Proc.recv buf count source msg_id k, f =>
    Proc.recv buf count source msg_id (fun data => (k data).bind f)
  | Proc.probe source msg_id k, f => Proc.probe source msg_id (fun c => (k c).bind f)

instance : Monad Proc where
  pure := Proc.ret
  bind := Proc.bind

/-- The call `assert(c)`. -/
def assert (c : Bool) : Proc Unit := if c then Proc.ret () else Proc.assert_fail

/-- The call `exit(status)`. -/
def exit (status : Int) : Proc Unit := Proc.exit status

/-- The call `fprintf(stderr, ...)` of the size check. -/
def fprintf_stderr (d : size_diag) : Proc Unit := Proc.fprintf_stderr d (Proc.ret ())

/-- The call `MPI_Send(buf, count, MPI_INT, dest, msg_id, MPI_COMM_WORLD)`. -/
def MPI_Send (buf : List Int) (count dest : Nat) (msg_id : Int) : Proc Unit :=
  Proc.send buf count dest msg_id (Proc.ret ())

/-- The call `MPI_Recv(buf, count, MPI_INT, source, msg_id, MPI_COMM_WORLD, MPI_STATUS_IGNORE)`;
the result is the buffer after the call. -/
def MPI_Recv (buf : List Int) (count source : Nat) (msg_id : Int) : Proc (List Int) :=
  Proc.recv buf count source msg_id Proc.ret

/-- The calls `MPI_Probe(source, msg_id, MPI_COMM_WORLD, &status)` and
`MPI_Get_count(&status, MPI_INT, &msg_size_status)`; the result is
`msg_size_status`. -/
def MPI_Probe (source : Nat) (msg_id : Int) : Proc Int :=
  Proc.probe source msg_id Proc.ret

/-! ## The round-trip engine -/

/-- The buffer after `calloc(msg_size, sizeof(int))` and the three assignments
`data[0] = MAGIC_START; data[msg_size-1] = MAGIC_END; data[1] = tag;`. -/
def init_data (msg_size : Nat) (tag : Int) : List Int :=
  (((List.replicate msg_size 0).set 0 MAGIC_START).set (msg_size - 1) MAGIC_END).set 1 tag

/-- The loop `for(unsigned int i = 2; i < msg_size-1; i++) data[i] = rand();`.
The value that the `j`-th call of `rand` in this loop returns is `rand j`. -/
def fill_rand (data : List Int) (msg_size : Nat) (rand : Nat → Int) : List Int :=
  (List.range (msg_size - 1 - 2)).foldl (fun d j => d.set (j + 2) (rand j)) data

/-- The function `round_trip_func(msg_size, snd_time, rcv_time, tag)` on the
process `world_rank` of `world_size`. -/
def round_trip_func (world_rank world_size msg_size : Nat) (tag : Int) (rand : Nat → Int) :
    Proc Unit := do
  assert (decide (msg_size ≥ 3))
  let data := init_data msg_size tag
  let msg_id := MAGIC_ID
  let data ←
    if world_rank ≠ 0 then
      MPI_Recv data msg_size (world_rank - 1) msg_id
    else
      pure (if tag = -1 then fill_rand data msg_size rand else data)
  MPI_Send data msg_size ((world_rank + 1) % world_size) msg_id
  if world_rank = 0 then do
    let _ ← MPI_Recv data msg_size (world_size - 1) msg_id
    pure ()
  else
    pure ()

/-- The probe and the size check that precede each receive of
`round_trip_msg_size_func`. -/
def probe_check (world_rank msg_size source : Nat) (msg_id : Int) : Proc Unit := do
  let msg_size_status ← MPI_Probe source msg_id
  if msg_size_status ≠ toInt32 msg_size then do
    fprintf_stderr ⟨world_rank, msg_size_status, msg_size⟩
    exit EXIT_FAILURE
  else
    pure ()

/-- The function `round_trip_msg_size_func(msg_size, snd_time, rcv_time, probe_time, tag)`
on the process `world_rank` of `world_size`. -/
def round_trip_msg_size_func (world_rank world_size msg_size : Nat) (tag : Int)
    (rand : Nat → Int) : Proc Unit := do
  assert (decide (msg_size ≥ 3))
  let data := init_data msg_size tag
  let msg_id := MAGIC_ID
  let data ←
    if world_rank ≠ 0 then do
      probe_check world_rank msg_size (world_rank - 1) msg_id
      MPI_Recv data msg_size (world_rank - 1) msg_id
    else
      pure (if tag = -1 then fill_rand data msg_size rand else data)
  MPI_Send data msg_size ((world_rank + 1) % world_size) msg_id
  if world_rank = 0 then do
    probe_check world_rank msg_size (world_size - 1) msg_id
    let _ ← MPI_Recv data msg_size (world_size - 1) msg_id
    pure ()
  else
    pure ()

/-! ## The network -/

/-- A message in flight. -/
structure Message where
  src : Nat
  dst : Nat
  msg_id : Int
  payload : List Int
  deriving DecidableEq, Repr

/-- What can be observed of a run. -/
inductive Event
  | sent (m : Message)
  | received (rank : Nat) (m : Message) (data : List Int)
  | probed (rank : Nat) (m : Message) (count : Int)
  | printed (d : size_diag)
  deriving DecidableEq, Repr

/-- The messages in flight, oldest first, and the events so far. -/
structure Net where
  mail : List Message
  log : List Event
  deriving DecidableEq, Repr

/-- A message matches a receive or probe of `rank` for `source` and `msg_id`. -/
def Message.matches (rank source : Nat) (msg_id : Int) (m : Message) : Bool :=
  decide (m.dst = rank) && decide (m.src = source) && decide (m.msg_id = msg_id)

/-- Runs a process of rank `rank` against the network until it returns, ends or
blocks (a receive or probe without a matching message in flight); what is left
of the process is returned with the network.  A send puts the first `count`
elements of the buffer in flight.  A receive takes the oldest matching
message; a message longer than `count` is a truncation error, on which the
library aborts (here: `assert_fail`); otherwise its payload overwrites the
head of the buffer. -/
def run_proc {α : Type} (rank : Nat) : Proc α → Net → Proc α × Net
  | Proc.ret a, net => (Proc.ret a, net)
  | Proc.assert_fail, net => (Proc.assert_fail, net)
  | Proc.exit status, net => (Proc.exit status, net)
  | Proc.fprintf_stderr d k, net =>
    run_proc rank k { net with log := net.log ++ [Event.printed d] }
  | Proc.send buf count dest msg_id k, net =>
    let m : Message := ⟨rank, dest, msg_id, buf.take count⟩
    run_proc rank k { mail := net.mail ++ [m], log := net.log ++ [Event.sent m] }
  | Proc.recv buf count source msg_id k, net =>
    match net.mail.find? (Message.matches rank source msg_id) with
    | none => (Proc.recv buf count source msg_id k, net)
    | some m =>
      if m.payload.length ≤ count then
        let data := m.payload ++ buf.drop m.payload.length
        run_proc rank (k data)
          { mail := net.mail.erase m, log := net.log ++ [Event.received rank m data] }
      else (Proc.assert_fail, net)
  | Proc.probe source msg_id k, net =>
    match net.mail.find? (Message.matches rank source msg_id) with
    | none => (Proc.probe source msg_id k, net)
    | some m =>
      let c := toInt32 m.payload.length
      run_proc rank (k c) { net with log := net.log ++ [Event.probed rank m c] }

/-- Whether a process has returned. -/
def Proc.returned {α : Type} : Proc α → Bool
  | Proc.ret _ => true
  | _ => false

/-- The relays `first, first+1, ..., first+count-1` of one trial, each run in
turn on the network the previous one leaves; `none` if one of them does not
return. -/
def run_relays (world_size msg_size : Nat) (tag : Int) (rand : Nat → Int) :
    Nat → Nat → Net → Option Net
  | 0, _, net => some net
  | count + 1, first, net =>
    match run_proc first (round_trip_func first world_size msg_size tag rand) net with
    | (p, net1) =>
      if p.returned then run_relays world_size msg_size tag rand count (first + 1) net1
      else none

/-- One trial of `round_trip_func` on a ring of `world_size` processes: rank 0
runs until it blocks in its receive, the ranks `1 .. world_size-1` run in
turn, rank 0 resumes.  The result is the network at the end if every process
has returned. -/
def ring_trial (world_size msg_size : Nat) (tag : Int) (rand : Nat → Int) : Option Net :=
  match run_proc 0 (round_trip_func 0 world_size msg_size tag rand) ⟨[], []⟩ with
  | (p0, net0) =>
    match run_relays world_size msg_size tag rand (world_size - 1) 1 net0 with
    | none => none
    | some net1 =>
      match run_proc 0 p0 net1 with
      | (p1, net2) => if p1.returned then some net2 else none

/-! ## Statistics (GNU Scientific Library)

The functions of the GNU Scientific Library that `main` calls, written after
the library: each is the loop of the library over `data[i * stride]` for
`i < n`.  A pointer `&recv_bf[k]` is the list `recv_bf.drop k`. -/

/-- The element `data[i * stride]`. -/
def strided (data : List ℚ) (stride i : Nat) : ℚ := data.getD (i * stride) 0

/-- The library function `gsl_stats_max(data, stride, n)`: starts from `data[0]`
and keeps every strictly larger element. -/
def gsl_stats_max (data : List ℚ) (stride n : Nat) : ℚ :=
  (List.range n).foldl
    (fun max i => if strided data stride i > max then strided data stride i else max)
    (strided data stride 0)

/-- The library function `gsl_stats_min(data, stride, n)`: starts from `data[0]`
and keeps every strictly smaller element. -/
def gsl_stats_min (data : List ℚ) (stride n : Nat) : ℚ :=
  (List.range n).foldl
    (fun min i => if strided data stride i < min then strided data stride i else min)
    (strided data stride 0)

/-- The library function `gsl_stats_max_index(data, stride, n)`: the index at
which the running maximum of `gsl_stats_max` was last replaced (the first
index of the largest element). -/
def gsl_stats_max_index (data : List ℚ) (stride n : Nat) : Nat :=
  ((List.range n).foldl
    (fun (st : ℚ × Nat) i => if strided data stride i > st.1 then (strided data stride i, i) else st)
    (strided data stride 0, 0)).2

/-- The library function `gsl_stats_mean(data, stride, n)`: the recurrence
`mean += (data[i * stride] - mean) / (i + 1)` from `mean = 0`. -/
def gsl_stats_mean (data : List ℚ) (stride n : Nat) : ℚ :=
  (List.range n).foldl (fun mean i => mean + (strided data stride i - mean) / ((i : ℚ) + 1)) 0

/-- The library function `gsl_stats_median_from_sorted_data(sorted_data, stride, n)`:
zero for `n = 0`, the element `(n-1)/2` when that is also the element `n/2`,
otherwise the mean of the two. -/
def gsl_stats_median_from_sorted_data (sorted_data : List ℚ) (stride n : Nat) : ℚ :=
  let lhs := (n - 1) / 2
  let rhs := n / 2
  if n = 0 then 0
  else if lhs = rhs then strided sorted_data stride lhs
  else (strided sorted_data stride lhs + strided sorted_data stride rhs) / 2

/-- The library function `gsl_stats_variance(data, stride, n)`: the recurrence
`variance += (delta * delta - variance) / (i + 1)` with
`delta = data[i * stride] - mean`, scaled by `n / (n - 1)`.  For `n = 1` the
library divides zero by zero; the division of `ℚ` gives zero there. -/
def gsl_stats_variance (data : List ℚ) (stride n : Nat) : ℚ :=
  let mean := gsl_stats_mean data stride n
  let variance := (List.range n).foldl
    (fun variance i =>
      variance + ((strided data stride i - mean) * (strided data stride i - mean) - variance)
        / ((i : ℚ) + 1)) 0
  variance * ((n : ℚ) / ((n : ℚ) - 1))

/-- The library function `gsl_sort(data, 1, n)`: the first `n` elements of
`data` are put into ascending order in place.  The library does this by heap
sort; the result is the ascending arrangement, obtained here by insertion. -/
def gsl_sort (data : List ℚ) (n : Nat) : List ℚ :=
  (data.take n).insertionSort (fun a b => a ≤ b) ++ data.drop n

/-! ## The reducer and the aggregator of `main` -/

/-- The five statistics `main` derives from one sample array after sorting it,
in the order of the initialiser of `send_bf`: max, min, mean, median,
variance. -/
def stats5 (times : List ℚ) (nr_runs : Nat) : List ℚ :=
  [gsl_stats_max times 1 nr_runs, gsl_stats_min times 1 nr_runs,
   gsl_stats_mean times 1 nr_runs, gsl_stats_median_from_sorted_data times 1 nr_runs,
   gsl_stats_variance times 1 nr_runs]

/-- The array `send_bf[15]` of `main`: the three sample arrays are sorted with
`gsl_sort`, then the statistics of send, receive and probe follow each other. -/
def send_bf (times_snd times_rcv times_prb : List ℚ) (nr_runs : Nat) : List ℚ :=
  stats5 (gsl_sort times_snd nr_runs) nr_runs ++ stats5 (gsl_sort times_rcv nr_runs) nr_runs
    ++ stats5 (gsl_sort times_prb nr_runs) nr_runs

/-- The call `MPI_Gather(send_bf, 15, MPI_DOUBLE, recv_bf, 15, MPI_DOUBLE, 0, MPI_COMM_WORLD)`
at the coordinator: the first 15 values of every process, in rank order. -/
def MPI_Gather (send_bfs : List (List ℚ)) : List ℚ :=
  (send_bfs.map (fun v => v.take 15)).flatten

/-- The line the coordinator prints for one message size: the arguments of the
`printf` calls that follow `printf("%i", pkg_size)`, in their order. -/
structure aggregate_line where
  pkg_size : Nat
  snd_max : ℚ
  snd_min : ℚ
  snd_mean : ℚ
  snd_median : ℚ
  snd_variance : ℚ
  rcv_max : ℚ
  rcv_min : ℚ
  rcv_mean : ℚ
  rcv_median : ℚ
  rcv_variance : ℚ
  prb_max : ℚ
  prb_min : ℚ
  prb_mean : ℚ
  prb_median : ℚ
  prb_variance : ℚ
  snd_index : Nat
  rcv_index : Nat
  prb_index : Nat
  deriving DecidableEq, Repr

/-- The branch `if (world_rank == 0)` of `main` after the gather: every value
is the library call of the source on `&recv_bf[k]` with stride 15 and
`world_size` elements. -/
def coordinator_line (pkg_size world_size : Nat) (recv_bf : List ℚ) : aggregate_line :=
  { pkg_size := pkg_size
    snd_max := gsl_stats_max (recv_bf.drop 0) 15 world_size
    snd_min := gsl_stats_min (recv_bf.drop 1) 15 world_size
    snd_mean := gsl_stats_mean (recv_bf.drop 2) 15 world_size
    snd_median := gsl_stats_mean (recv_bf.drop 3) 15 world_size
    snd_variance := gsl_stats_mean (recv_bf.drop 4) 15 world_size
    rcv_max := gsl_stats_max (recv_bf.drop 5) 15 world_size
    rcv_min := gsl_stats_min (recv_bf.drop 6) 15 world_size
    rcv_mean := gsl_stats_mean (recv_bf.drop 7) 15 world_size
    rcv_median := gsl_stats_mean (recv_bf.drop 8) 15 world_size
    rcv_variance := gsl_stats_mean (recv_bf.drop 9) 15 world_size
    prb_max := gsl_stats_max (recv_bf.drop 10) 15 world_size
    prb_min := gsl_stats_min (recv_bf.drop 11) 15 world_size
    prb_mean := gsl_stats_mean (recv_bf.drop 12) 15 world_size
    prb_median := gsl_stats_mean (recv_bf.drop 13) 15 world_size
    prb_variance := gsl_stats_mean (recv_bf.drop 14) 15 world_size
    snd_index := gsl_stats_max_index (recv_bf.drop 2) 15 world_size
    rcv_index := gsl_stats_max_index (recv_bf.drop 7) 15 world_size
    prb_index := gsl_stats_max_index (recv_bf.drop 11) 15 world_size }

/-! ## The trials of `main` -/

/-- The `switch (mysettings.mode)` of the trial loop of `main` for the trial
that finds the counter at `msg_count`; the counter is passed for the
parameter `int tag`.  The cases `round_trip_sync` and `round_trip_wait` call
`round_trip_msg_size_sync_func`, which the source does not define: no process
is given for them. -/
def run_trial (mysettings : settings) (world_rank world_size pkg_size msg_count : Nat)
    (rand : Nat → Int) : Option (Proc Unit) :=
  match mysettings.mode with
  | run_mode.round_trip =>
    some (round_trip_func world_rank world_size pkg_size (toInt32 msg_count) rand)
  | run_mode.round_trip_msg_size =>
    some (round_trip_msg_size_func world_rank world_size pkg_size (toInt32 msg_count) rand)
  | run_mode.round_trip_sync => none
  | run_mode.round_trip_wait => none

/-- The buffer of the first send of a process, as far as the process gets
there without the help of the library. -/
def Proc.first_send {α : Type} : Proc α → Option (List Int)
  | Proc.send buf count _ _ _ => some (buf.take count)
  | Proc.fprintf_stderr _ k => k.first_send
  | _ => none

/-! ## Auxiliary definitions for the statements -/

/-- The buffer rank 0 passes to `MPI_Send` in `round_trip_func`. -/
def originator_data (msg_size : Nat) (tag : Int) (rand : Nat → Int) : List Int :=
  if tag = -1 then fill_rand (init_data msg_size tag) msg_size rand else init_data msg_size tag

/-- The message the predecessor of `world_rank` on the ring has in flight to
it: from `world_size - 1` for the originator, from `world_rank - 1` for a
relay. -/
def incoming (world_rank world_size : Nat) (payload : List Int) : Message :=
  ⟨if world_rank = 0 then world_size - 1 else world_rank - 1, world_rank, MAGIC_ID, payload⟩

/-- The message rank `r` sends on a ring of `world_size` processes when the
envelope is `E`. -/
def ring_msg (world_size : Nat) (E : List Int) (r : Nat) : Message :=
  ⟨r, (r + 1) % world_size, MAGIC_ID, E⟩

/-- The events of the relays `first .. first+count-1`. -/
def relay_events (world_size : Nat) (E : List Int) (first count : Nat) : List Event :=
  (List.range' first count).flatMap
    (fun r => [Event.received r (ring_msg world_size E (r - 1)) E,
               Event.sent (ring_msg world_size E r)])

/-- A call of the library as a process makes it: the kind and the peer. -/
inductive Call
  | send (dest : Nat)
  | recv (source : Nat)
  | probe (source : Nat)
  deriving DecidableEq, Repr

/-- The calls a process makes, in order, when every receive hands back
`deliver buf` for its buffer `buf` and every probe hands back `count`. -/
def Proc.calls {α : Type} (deliver : List Int → List Int) (count : Int) : Proc α → List Call
  | Proc.ret _ => []
  | Proc.assert_fail => []
  | Proc.exit _ => []
  | Proc.fprintf_stderr _ k => k.calls deliver count
  | Proc.send _ _ dest _ k => Call.send dest :: k.calls deliver count
  | Proc.recv buf _ source _ k => Call.recv source :: (k (deliver buf)).calls deliver count
  | Proc.probe source _ k => Call.probe source :: (k count).calls deliver count

/-- The event is a completed send. -/
def Event.is_sent : Event → Bool
  | Event.sent _ => true
  | _ => false

/-- The event is a completed receive. -/
def Event.is_received : Event → Bool
  | Event.received _ _ _ => true
  | _ => false


/-! # Theorems -/

/-! ## Process terms -/

@[simp] theorem Proc.pure_def {α : Type} (a : α) : (pure a : Proc α) = Proc.ret a := rfl

@[simp] theorem Proc.bind_def {α β : Type} (p : Proc α) (f : α → Proc β) :
    (p >>= f) = p.bind f := rfl

/-! ## The command line and the sweep -/

theorem sweep_sizes_eq :
    sweep_sizes = some [16, 24, 32, 48, 64, 96, 128, 192, 256, 384, 512, 768, 1024, 1536,
      2048, 3072, 4096, 6144, 8192, 12288, 16384, 24576] := by decide

/-- Claim C1 (defect of the code): `parse_cmdline` maps the token
`round_trip_sync` to the mode `round_trip_wait` and the token `round_trip_wait`
to the mode `round_trip_sync`; only `round_trip` and `round_trip_msg_size` get
the mode of their own name. -/
theorem parse_cmdline_mode_tokens_swapped :
    parsed_mode (parse_cmdline [] ["round_trip_sync"]) = some run_mode.round_trip_wait ∧
    parsed_mode (parse_cmdline [] ["round_trip_wait"]) = some run_mode.round_trip_sync ∧
    parsed_mode (parse_cmdline [] ["round_trip"]) = some run_mode.round_trip ∧
    parsed_mode (parse_cmdline [] ["round_trip_msg_size"]) = some run_mode.round_trip_msg_size := by
  decide

/-- Claim C4: the sweep runs to its end; its sizes are strictly increasing,
begin 16, 24, 32, 48, 64, 96, 128, contain `2 ^ k` for every `k` from 4 to 14
and, strictly between `2 ^ k` and `2 ^ (k + 1)` for every `k` from 4 to 13,
exactly the one size `3 * 2 ^ (k - 1)`. -/
theorem sweep_sizes_sequence :
    ∃ sizes, sweep_sizes = some sizes ∧
      sizes.Sorted (fun a b => a < b) ∧
      sizes.take 7 = [16, 24, 32, 48, 64, 96, 128] ∧
      (∀ k, 4 ≤ k → k ≤ 14 → 2 ^ k ∈ sizes) ∧
      (∀ k, 4 ≤ k → k ≤ 13 →
        sizes.filter (fun x => decide (2 ^ k < x ∧ x < 2 ^ (k + 1))) = [3 * 2 ^ (k - 1)]) := by
  refine ⟨_, sweep_sizes_eq, by decide, by decide, ?_, ?_⟩
  · intro k h1 h2
    interval_cases k <;> decide
  · intro k h1 h2
    interval_cases k <;> decide

/-- Claim C5 as stated fails: not every size of the sweep is at most `2 ^ 14`;
the last size is 24576. -/
theorem sweep_sizes_exceed_upper_exponent :
    ¬ (∀ sizes, sweep_sizes = some sizes → ∀ x ∈ sizes, x ≤ 2 ^ 14) := by
  intro h
  have := h _ sweep_sizes_eq 24576 (by decide)
  exact absurd this (by decide)

/-- Claim C5, amended: every size of the sweep is at most 24576, the midpoint of
`2 ^ 14` and `2 ^ 15`, which the sweep does run; every other size is at most
`2 ^ 14`. -/
theorem sweep_sizes_upper_bound :
    ∃ sizes, sweep_sizes = some sizes ∧
      (∀ x ∈ sizes, x ≤ 24576) ∧ 24576 ∈ sizes ∧ 24576 = (2 ^ 14 + 2 ^ 15) / 2 ∧
      (∀ x ∈ sizes, x ≠ 24576 → x ≤ 2 ^ 14) := by
  refine ⟨_, sweep_sizes_eq, by decide, by decide, by decide, by decide⟩

/-- Claim C3 (defect of the code): the option `-r` sets `fill_random = 1`, yet
on the first trial of the sweep (size 16, counter 0) the envelope rank 0 sends
has every payload element zero, whatever `fill_random`, the ring size and the
values of `rand` are.  More generally, in the modes `round_trip` and
`round_trip_msg_size`, for all settings and every trial that finds the counter
below `2 ^ 31`, rank 0 sends the buffer as initialised, whose elements
`2 .. pkg_size - 2` are zero. -/
theorem random_fill_ignores_flag :
    parse_cmdline [⟨'r', ""⟩] ["round_trip"]
      = parse_result.parsed
          { nr_runs := 1000, fill_random := 1, mode := run_mode.round_trip, wait := 20 } 42 ∧
    (∀ (fill_random world_size : Nat) (rand : Nat → Int),
      (run_trial
          { nr_runs := 1000, fill_random := fill_random, mode := run_mode.round_trip, wait := 20 }
          0 world_size 16 0 rand).bind Proc.first_send
        = some [232323, 0, 0, 0, 0, 0, 0, 0, 0, 0, 0, 0, 0, 0, 0, 424242]) ∧
    (∀ (mysettings : settings) (world_size pkg_size msg_count : Nat) (rand : Nat → Int),
      mysettings.mode = run_mode.round_trip ∨ mysettings.mode = run_mode.round_trip_msg_size →
      3 ≤ pkg_size → msg_count < 2 ^ 31 →
      (run_trial mysettings 0 world_size pkg_size msg_count rand).bind Proc.first_send
          = some (init_data pkg_size msg_count) ∧
      ∀ i, 2 ≤ i → i < pkg_size - 1 → (init_data pkg_size msg_count)[i]? = some 0) := by
  refine ⟨by decide, ?_, ?_⟩
  · intro fill_random world_size rand
    rfl
  · intro mysettings world_size pkg_size msg_count rand hmode hn hc
    have htag : toInt32 (msg_count : Int) ≠ -1 := by
      unfold toInt32
      omega
    have h32 : toInt32 (msg_count : Int) = msg_count := by
      unfold toInt32
      omega
    have htake : List.take pkg_size (init_data pkg_size (msg_count : Int))
        = init_data pkg_size (msg_count : Int) :=
      List.take_of_length_le (by simp [init_data])
    constructor
    · rcases hmode with h | h
      · simp only [run_trial, h, Option.bind_eq_bind, Option.some_bind]
        simp [round_trip_func, assert, hn, Proc.bind, MPI_Recv, MPI_Send, Proc.first_send,
          htag, h32, htake]
      · simp only [run_trial, h, Option.bind_eq_bind, Option.some_bind]
        simp [round_trip_msg_size_func, assert, hn, Proc.bind, MPI_Recv, MPI_Send,
          Proc.first_send, htag, h32, htake]
    · intro i h2 hi
      have e1 : ¬ (1 = i) := by omega
      have e2 : ¬ (pkg_size - 1 = i) := by omega
      have e3 : ¬ (0 = i) := by omega
      have e4 : i < pkg_size := by omega
      simp [init_data, List.getElem?_set, e1, e2, e3, e4]

/-- Claim C2 (defect of the code): with two processes whose probe samples are
`2, 2` and `5, 1`, the probe index the coordinator prints is 0, the process
with the larger probe minimum, although the probe mean of process 1 is the
larger one; the index of the largest entry 12 is 1.  The send and receive
indices are computed from the entries 2 and 7. -/
theorem probe_outlier_index_reads_min :
    (coordinator_line 16 2
        (MPI_Gather [send_bf [1, 1] [2, 2] [2, 2] 2, send_bf [1, 1] [2, 2] [5, 1] 2])).prb_index
      = 0 ∧
    (send_bf [1, 1] [2, 2] [2, 2] 2).getD 12 0 < (send_bf [1, 1] [2, 2] [5, 1] 2).getD 12 0 ∧
    gsl_stats_max_index
        ((MPI_Gather [send_bf [1, 1] [2, 2] [2, 2] 2, send_bf [1, 1] [2, 2] [5, 1] 2]).drop 12)
        15 2 = 1 := by
  have h0 : send_bf [1, 1] [2, 2] [2, 2] 2
      = [1, 1, 1, 1, 0, 2, 2, 2, 2, 0, 2, 2, 2, 2, 0] := by
    norm_num [send_bf, stats5, gsl_sort, gsl_stats_max, gsl_stats_min, gsl_stats_mean,
      gsl_stats_median_from_sorted_data, gsl_stats_variance, strided, List.range,
      List.range.loop]
  have h1 : send_bf [1, 1] [2, 2] [5, 1] 2
      = [1, 1, 1, 1, 0, 2, 2, 2, 2, 0, 5, 1, 3, 3, 8] := by
    norm_num [send_bf, stats5, gsl_sort, gsl_stats_max, gsl_stats_min, gsl_stats_mean,
      gsl_stats_median_from_sorted_data, gsl_stats_variance, strided, List.range,
      List.range.loop]
  rw [h0, h1]
  refine ⟨by decide, by decide, by decide⟩

/-! ## The ring -/

theorem round_trip_func_relay (world_rank world_size msg_size : Nat) (tag : Int)
    (rand : Nat → Int) (hr : world_rank ≠ 0) (hn : 3 ≤ msg_size) :
    round_trip_func world_rank world_size msg_size tag rand
      = Proc.recv (init_data msg_size tag) msg_size (world_rank - 1) MAGIC_ID
          (fun data => Proc.send data msg_size ((world_rank + 1) % world_size) MAGIC_ID
            (Proc.ret ())) := by
  simp [round_trip_func, assert, hn, hr, Proc.bind, MPI_Recv, MPI_Send]

theorem round_trip_func_originator (world_size msg_size : Nat) (tag : Int)
    (rand : Nat → Int) (hn : 3 ≤ msg_size) :
    round_trip_func 0 world_size msg_size tag rand
      = Proc.send (if tag = -1 then fill_rand (init_data msg_size tag) msg_size rand
            else init_data msg_size tag) msg_size (1 % world_size) MAGIC_ID
          (Proc.recv (if tag = -1 then fill_rand (init_data msg_size tag) msg_size rand
            else init_data msg_size tag) msg_size (world_size - 1) MAGIC_ID
            (fun _ => Proc.ret ())) := by
  simp [round_trip_func, assert, hn, Proc.bind, MPI_Recv, MPI_Send]


theorem init_data_length (msg_size : Nat) (tag : Int) :
    (init_data msg_size tag).length = msg_size := by
  simp [init_data]

theorem init_data_head (msg_size : Nat) (tag : Int) (hn : 3 ≤ msg_size) :
    (init_data msg_size tag)[0]? = some MAGIC_START := by
  have h1 : ¬ (1 = msg_size - 1) := by omega
  have h2 : 0 < msg_size := by omega
  have h3 : 1 < msg_size := by omega
  have h4 : ¬ (msg_size - 1 = 0) := by omega
  simp [init_data, List.getElem?_set, h1, h2, h3, h4]

theorem init_data_last (msg_size : Nat) (tag : Int) (hn : 3 ≤ msg_size) :
    (init_data msg_size tag)[msg_size - 1]? = some MAGIC_END := by
  have h1 : ¬ (1 = msg_size - 1) := by omega
  have h2 : 0 < msg_size := by omega
  have h3 : 1 < msg_size := by omega
  have h4 : ¬ (msg_size - 1 = 0) := by omega
  simp [init_data, List.getElem?_set, h1, h2, h3, h4]

theorem init_data_tag (msg_size : Nat) (tag : Int) (hn : 3 ≤ msg_size) :
    (init_data msg_size tag)[1]? = some tag := by
  have h1 : ¬ (1 = msg_size - 1) := by omega
  have h2 : 0 < msg_size := by omega
  have h3 : 1 < msg_size := by omega
  have h4 : ¬ (msg_size - 1 = 0) := by omega
  simp [init_data, List.getElem?_set, h1, h2, h3, h4]

theorem fill_loop_length (rand : Nat → Int) (m : Nat) (data : List Int) :
    ((List.range m).foldl (fun d j => d.set (j + 2) (rand j)) data).length = data.length := by
  induction m with
  | zero => simp
  | succ m ih => simp [List.range_succ, List.foldl_append, ih]

theorem fill_loop_outside (rand : Nat → Int) (m : Nat) (data : List Int) (idx : Nat)
    (h : idx < 2 ∨ m + 2 ≤ idx) :
    ((List.range m).foldl (fun d j => d.set (j + 2) (rand j)) data)[idx]? = data[idx]? := by
  induction m with
  | zero => simp
  | succ m ih =>
    have hne : m + 2 ≠ idx := by omega
    simp [List.range_succ, List.foldl_append, List.getElem?_set, hne]
    exact ih (by omega)

theorem fill_rand_length (data : List Int) (msg_size : Nat) (rand : Nat → Int) :
    (fill_rand data msg_size rand).length = data.length := by
  simp [fill_rand, fill_loop_length]

theorem fill_rand_outside (data : List Int) (msg_size : Nat) (rand : Nat → Int) (idx : Nat)
    (hn : 3 ≤ msg_size) (h : idx < 2 ∨ msg_size - 1 ≤ idx) :
    (fill_rand data msg_size rand)[idx]? = data[idx]? := by
  unfold fill_rand
  exact fill_loop_outside rand _ data idx (by omega)


theorem run_proc_relay (world_rank world_size msg_size : Nat) (tag : Int) (rand : Nat → Int)
    (E : List Int) (L : List Event)
    (hr : world_rank ≠ 0) (hs : world_rank < world_size) (hn : 3 ≤ msg_size)
    (hE : E.length = msg_size) :
    run_proc world_rank (round_trip_func world_rank world_size msg_size tag rand)
        ⟨[ring_msg world_size E (world_rank - 1)], L⟩
      = (Proc.ret (), ⟨[ring_msg world_size E world_rank],
          L ++ [Event.received world_rank (ring_msg world_size E (world_rank - 1)) E,
                Event.sent (ring_msg world_size E world_rank)]⟩) := by
  have h1 : world_rank - 1 + 1 = world_rank := by omega
  rw [round_trip_func_relay _ _ _ _ _ hr hn]
  simp [run_proc, ring_msg, Message.matches, h1, Nat.mod_eq_of_lt hs, hE, init_data_length]

theorem run_relays_eq (world_size msg_size : Nat) (tag : Int) (rand : Nat → Int)
    (E : List Int) (hn : 3 ≤ msg_size) (hE : E.length = msg_size) :
    ∀ (count first : Nat) (L : List Event), 1 ≤ first → first + count ≤ world_size →
      run_relays world_size msg_size tag rand count first
          ⟨[ring_msg world_size E (first - 1)], L⟩
        = some ⟨[ring_msg world_size E (first + count - 1)],
            L ++ relay_events world_size E first count⟩ := by
  intro count
  induction count with
  | zero => intro first L _ _; simp [run_relays, relay_events]
  | succ count ih =>
    intro first L h1 h2
    have h3 : first + 1 + count - 1 = first + (count + 1) - 1 := by omega
    rw [run_relays, run_proc_relay first world_size msg_size tag rand E L (by omega) (by omega) hn hE]
    simp only [Proc.returned, if_true]
    have := ih (first + 1) (L ++ [Event.received first (ring_msg world_size E (first - 1)) E,
                Event.sent (ring_msg world_size E first)]) (by omega) (by omega)
    simp only [Nat.add_sub_cancel] at this
    rw [this, h3]
    simp [relay_events, List.range']


theorem originator_data_length (msg_size : Nat) (tag : Int) (rand : Nat → Int) :
    (originator_data msg_size tag rand).length = msg_size := by
  unfold originator_data
  split <;> simp [fill_rand_length, init_data_length]

theorem originator_data_outside (msg_size : Nat) (tag : Int) (rand : Nat → Int) (idx : Nat)
    (hn : 3 ≤ msg_size) (h : idx < 2 ∨ msg_size - 1 ≤ idx) :
    (originator_data msg_size tag rand)[idx]? = (init_data msg_size tag)[idx]? := by
  unfold originator_data
  split
  · exact fill_rand_outside _ _ _ _ hn h
  · rfl

theorem ring_trial_eq (world_size msg_size : Nat) (tag : Int) (rand : Nat → Int)
    (hs : 2 ≤ world_size) (hn : 3 ≤ msg_size) :
    ring_trial world_size msg_size tag rand
      = some ⟨[], Event.sent (ring_msg world_size (originator_data msg_size tag rand) 0)
          :: (relay_events world_size (originator_data msg_size tag rand) 1 (world_size - 1)
          ++ [Event.received 0
                (ring_msg world_size (originator_data msg_size tag rand) (world_size - 1))
                (originator_data msg_size tag rand)])⟩ := by
  have hE := originator_data_length msg_size tag rand
  have h1 : 1 % world_size = 1 := Nat.mod_eq_of_lt (by omega)
  have h2 : world_size - 1 + 1 = world_size := by omega
  have h3 : 1 + (world_size - 1) - 1 = world_size - 1 := by omega
  have hrel := run_relays_eq world_size msg_size tag rand (originator_data msg_size tag rand)
    hn hE (world_size - 1) 1
    [Event.sent (ring_msg world_size (originator_data msg_size tag rand) 0)] (le_refl 1)
    (by omega)
  rw [h3] at hrel
  simp only [Nat.sub_self] at hrel
  have horig : round_trip_func 0 world_size msg_size tag rand
      = Proc.send (originator_data msg_size tag rand) msg_size (1 % world_size) MAGIC_ID
          (Proc.recv (originator_data msg_size tag rand) msg_size (world_size - 1) MAGIC_ID
            (fun _ => Proc.ret ())) := by
    rw [round_trip_func_originator _ _ _ _ hn]; rfl
  have htake : List.take msg_size (originator_data msg_size tag rand)
      = originator_data msg_size tag rand := List.take_of_length_le (by omega)
  have hne : ¬ (world_size - 1 = 0) := by omega
  unfold ring_trial
  rw [horig]
  simp only [ring_msg, h1, Nat.zero_add, List.nil_append] at hrel
  simp [run_proc, Message.matches, h1, h2, htake, hE, hrel, ring_msg, Proc.returned]


theorem relay_events_sent (world_size : Nat) (E : List Int) :
    ∀ (count first : Nat),
      ((relay_events world_size E first count).filter Event.is_sent).length = count ∧
      ((relay_events world_size E first count).filter Event.is_received).length = count := by
  intro count
  induction count with
  | zero => intro first; simp [relay_events]
  | succ count ih =>
    intro first
    have h := ih (first + 1)
    simp only [relay_events] at h
    simp [relay_events, List.range', List.filter_cons, Event.is_sent, Event.is_received, h]

theorem relay_events_payload (world_size : Nat) (E : List Int) (first count : Nat) :
    (∀ m, Event.sent m ∈ relay_events world_size E first count → m.payload = E) ∧
    (∀ r m data, Event.received r m data ∈ relay_events world_size E first count →
      m.payload = E ∧ data = E) := by
  constructor
  · intro m hm
    simp only [relay_events, List.mem_flatMap, List.mem_cons, List.mem_singleton] at hm
    obtain ⟨r, _, h | h | h⟩ := hm
    · cases h
    · cases h; rfl
    · cases h
  · intro r m data hm
    simp only [relay_events, List.mem_flatMap, List.mem_cons, List.mem_singleton] at hm
    obtain ⟨r, _, h | h | h⟩ := hm
    · cases h; exact ⟨rfl, rfl⟩
    · cases h
    · cases h

theorem pred_mod (world_rank world_size : Nat) (hs : 1 ≤ world_size)
    (hr : world_rank < world_size) :
    (world_rank + world_size - 1) % world_size
      = if world_rank = 0 then world_size - 1 else world_rank - 1 := by
  split
  · next h => subst h; simp
  · next h =>
    have : world_rank + world_size - 1 = world_size + (world_rank - 1) := by omega
    rw [this, Nat.add_mod_left]
    exact Nat.mod_eq_of_lt (by omega)

/-- Claim C6: on a ring of `world_size ≥ 2` processes and for a message size
`msg_size ≥ 3`, one trial of `round_trip_func` runs to the end with no message
left in flight; the first event is the send of rank 0 with an envelope `E`, the
last event is the receive of rank 0 from rank `world_size - 1`, which delivers
the same `E`; every message sent and every buffer received in between is `E`;
and `E` has `msg_size` elements, the start sentinel in element 0, the end
sentinel in element `msg_size - 1` and the tag in element 1. -/
theorem ring_round_trip_integrity (world_size msg_size : Nat) (tag : Int) (rand : Nat → Int)
    (hs : 2 ≤ world_size) (hn : 3 ≤ msg_size) :
    ∃ net E, ring_trial world_size msg_size tag rand = some net ∧ net.mail = [] ∧
      net.log.head? = some (Event.sent ⟨0, 1 % world_size, MAGIC_ID, E⟩) ∧
      net.log.getLast? = some (Event.received 0 ⟨world_size - 1, 0, MAGIC_ID, E⟩ E) ∧
      (∀ m, Event.sent m ∈ net.log → m.payload = E) ∧
      (∀ r m data, Event.received r m data ∈ net.log → m.payload = E ∧ data = E) ∧
      E.length = msg_size ∧ E[0]? = some MAGIC_START ∧ E[msg_size - 1]? = some MAGIC_END ∧
      E[1]? = some tag := by
  have h2 : world_size - 1 + 1 = world_size := by omega
  have hp := relay_events_payload world_size (originator_data msg_size tag rand) 1 (world_size - 1)
  refine ⟨_, originator_data msg_size tag rand, ring_trial_eq world_size msg_size tag rand hs hn,
    rfl, ?_, ?_, ?_, ?_, originator_data_length _ _ _, ?_, ?_, ?_⟩
  · simp [ring_msg]
  · rw [← List.cons_append, List.getLast?_concat]
    simp [ring_msg, h2]
  · intro m hm
    simp only [List.mem_cons, List.mem_append, List.not_mem_nil, or_false] at hm
    rcases hm with h | h | h
    · cases h; rfl
    · exact hp.1 m h
    · cases h
  · intro r m data hm
    simp only [List.mem_cons, List.mem_append, List.not_mem_nil, or_false] at hm
    rcases hm with h | h | h
    · cases h
    · exact hp.2 r m data h
    · cases h; exact ⟨rfl, rfl⟩
  · rw [originator_data_outside _ _ _ _ hn (by omega), init_data_head _ _ hn]
  · rw [originator_data_outside _ _ _ _ hn (by omega), init_data_last _ _ hn]
  · rw [originator_data_outside _ _ _ _ hn (by omega), init_data_tag _ _ hn]

/-- Claim C10: in `round_trip_func` a rank of a ring of `world_size ≥ 2`
makes exactly two calls, one send to `(rank + 1) mod size` and one receive from
`(rank + size - 1) mod size`, the originator sending first and a relay
receiving first; the receive source of a rank is the only rank whose send
destination is that rank; and a trial of the whole ring completes exactly
`world_size` sends and `world_size` receives. -/
theorem round_trip_func_transfers (world_rank world_size msg_size : Nat) (tag : Int)
    (rand : Nat → Int) (deliver : List Int → List Int) (count : Int)
    (hs : 2 ≤ world_size) (hr : world_rank < world_size) (hn : 3 ≤ msg_size) :
    (round_trip_func world_rank world_size msg_size tag rand).calls deliver count
        = (if world_rank = 0 then
            [Call.send ((world_rank + 1) % world_size),
             Call.recv ((world_rank + world_size - 1) % world_size)]
          else
            [Call.recv ((world_rank + world_size - 1) % world_size),
             Call.send ((world_rank + 1) % world_size)]) ∧
    (∀ q, q < world_size →
      ((q + 1) % world_size = world_rank ↔ q = (world_rank + world_size - 1) % world_size)) ∧
    ∃ net, ring_trial world_size msg_size tag rand = some net ∧
      (net.log.filter Event.is_sent).length = world_size ∧
      (net.log.filter Event.is_received).length = world_size := by
  have hpred := pred_mod world_rank world_size (by omega) hr
  refine ⟨?_, ?_, _, ring_trial_eq world_size msg_size tag rand hs hn, ?_, ?_⟩
  · by_cases h0 : world_rank = 0
    · subst h0
      rw [round_trip_func_originator _ _ _ _ hn]
      simp [Proc.calls, hpred]
    · rw [round_trip_func_relay _ _ _ _ _ h0 hn]
      simp [Proc.calls, hpred, h0]
  · intro q hq
    rw [hpred]
    by_cases hq1 : q + 1 = world_size
    · rw [hq1, Nat.mod_self]
      split <;> omega
    · rw [Nat.mod_eq_of_lt (by omega)]
      split <;> omega
  · have := (relay_events_sent world_size (originator_data msg_size tag rand) (world_size - 1) 1).1
    simp [List.filter_cons, List.filter_append, Event.is_sent, this]
    omega
  · have := (relay_events_sent world_size (originator_data msg_size tag rand) (world_size - 1) 1).2
    simp [List.filter_cons, List.filter_append, Event.is_received, this]
    omega


/-! ## The size probe -/

theorem toInt32_of_lt (p : Nat) (hp : p < 2 ^ 31) : toInt32 (p : Int) = p := by
  unfold toInt32
  omega

theorem toInt32_ne_iff (p n : Nat) (hp : p < 2 ^ 31) (hn : n < 2 ^ 32) :
    (p : Int) ≠ toInt32 (n : Int) ↔ p ≠ n := by
  unfold toInt32
  omega

theorem probe_check_bind (world_rank msg_size source : Nat) (msg_id : Int) (k : Proc Unit) :
    (probe_check world_rank msg_size source msg_id).bind (fun _ => k)
      = Proc.probe source msg_id (fun msg_size_status =>
          if msg_size_status ≠ toInt32 msg_size then
            Proc.fprintf_stderr ⟨world_rank, msg_size_status, msg_size⟩ (Proc.exit EXIT_FAILURE)
          else k) := by
  simp only [probe_check, MPI_Probe, Proc.bind_def, Proc.bind, fprintf_stderr, exit, Proc.pure_def]
  congr 1
  funext c
  split <;> simp [Proc.bind]

theorem round_trip_msg_size_func_relay (world_rank world_size msg_size : Nat) (tag : Int)
    (rand : Nat → Int) (hr : world_rank ≠ 0) (hn : 3 ≤ msg_size) :
    round_trip_msg_size_func world_rank world_size msg_size tag rand
      = Proc.probe (world_rank - 1) MAGIC_ID (fun msg_size_status =>
          if msg_size_status ≠ toInt32 msg_size then
            Proc.fprintf_stderr ⟨world_rank, msg_size_status, msg_size⟩ (Proc.exit EXIT_FAILURE)
          else
            Proc.recv (init_data msg_size tag) msg_size (world_rank - 1) MAGIC_ID
              (fun data => Proc.send data msg_size ((world_rank + 1) % world_size) MAGIC_ID
                (Proc.ret ()))) := by
  simp only [round_trip_msg_size_func, assert, hn, hr, Proc.bind_def, Proc.pure_def, MPI_Recv,
    MPI_Send, decide_True, if_true, Proc.bind, ne_eq, not_false_eq_true, if_false]
  congr 1
  funext c
  split <;> simp [Proc.bind, exit]

theorem round_trip_msg_size_func_originator (world_size msg_size : Nat) (tag : Int)
    (rand : Nat → Int) (hn : 3 ≤ msg_size) :
    round_trip_msg_size_func 0 world_size msg_size tag rand
      = Proc.send (originator_data msg_size tag rand) msg_size (1 % world_size) MAGIC_ID
          (Proc.probe (world_size - 1) MAGIC_ID (fun msg_size_status =>
            if msg_size_status ≠ toInt32 msg_size then
              Proc.fprintf_stderr ⟨0, msg_size_status, msg_size⟩ (Proc.exit EXIT_FAILURE)
            else
              Proc.recv (originator_data msg_size tag rand) msg_size (world_size - 1) MAGIC_ID
                (fun _ => Proc.ret ()))) := by
  simp only [round_trip_msg_size_func, assert, hn, Proc.bind_def, Proc.pure_def, MPI_Recv,
    MPI_Send, decide_True, if_true, Proc.bind, ne_eq, not_true_eq_false, if_false,
    originator_data, Nat.zero_add]
  congr 1
  congr 1
  funext c
  split <;> simp [Proc.bind, exit]


theorem run_proc_probe_some {α : Type} (rank source : Nat) (msg_id : Int) (k : Int → Proc α)
    (net : Net) (m : Message)
    (hfind : net.mail.find? (Message.matches rank source msg_id) = some m) :
    run_proc rank (Proc.probe source msg_id k) net
      = run_proc rank (k (toInt32 m.payload.length))
          { net with log := net.log ++ [Event.probed rank m (toInt32 m.payload.length)] } := by
  rw [run_proc, hfind]

theorem run_proc_recv_some {α : Type} (rank : Nat) (buf : List Int) (count source : Nat)
    (msg_id : Int) (k : List Int → Proc α) (net : Net) (m : Message)
    (hfind : net.mail.find? (Message.matches rank source msg_id) = some m)
    (hlen : m.payload.length ≤ count) :
    run_proc rank (Proc.recv buf count source msg_id k) net
      = run_proc rank (k (m.payload ++ buf.drop m.payload.length))
          { mail := net.mail.erase m,
            log := net.log ++ [Event.received rank m (m.payload ++ buf.drop m.payload.length)] } := by
  rw [run_proc, hfind]
  simp [hlen]

/-- Claim C7: `round_trip_msg_size_func` on a rank that finds a message of
`payload.length` elements from its predecessor ends in `exit(EXIT_FAILURE)` if
and only if that length differs from `msg_size`, and returns if it is equal.
On a mismatch the events are, for the originator, its send, then the probe and
the diagnostic with the rank and both lengths; for a relay the probe and the
diagnostic only: nothing is sent or received after the probe. -/
theorem size_probe_mismatch_exits (world_rank world_size msg_size : Nat) (tag : Int)
    (rand : Nat → Int) (payload : List Int)
    (hr : world_rank < world_size) (hn : 3 ≤ msg_size) (hu : msg_size < 2 ^ 32)
    (hp : payload.length < 2 ^ 31) :
    ((run_proc world_rank (round_trip_msg_size_func world_rank world_size msg_size tag rand)
        ⟨[incoming world_rank world_size payload], []⟩).1 = Proc.exit EXIT_FAILURE
      ↔ payload.length ≠ msg_size) ∧
    (payload.length = msg_size →
      (run_proc world_rank (round_trip_msg_size_func world_rank world_size msg_size tag rand)
        ⟨[incoming world_rank world_size payload], []⟩).1 = Proc.ret ()) ∧
    (payload.length ≠ msg_size →
      (run_proc world_rank (round_trip_msg_size_func world_rank world_size msg_size tag rand)
        ⟨[incoming world_rank world_size payload], []⟩).2.log
        = (if world_rank = 0 then
            [Event.sent ⟨0, 1 % world_size, MAGIC_ID,
              (originator_data msg_size tag rand).take msg_size⟩]
          else [])
          ++ [Event.probed world_rank (incoming world_rank world_size payload) payload.length,
              Event.printed ⟨world_rank, payload.length, msg_size⟩]) := by
  unfold incoming
  have h1 := toInt32_of_lt payload.length hp
  have h2 := toInt32_ne_iff payload.length msg_size hp hu
  by_cases h0 : world_rank = 0
  · subst h0
    rw [round_trip_msg_size_func_originator _ _ _ _ hn]
    simp only [if_true]
    rw [run_proc, run_proc_probe_some 0 (world_size - 1) MAGIC_ID _ _
      ⟨world_size - 1, 0, MAGIC_ID, payload⟩ (by simp [Message.matches])]
    simp only [h1]
    by_cases hm : payload.length = msg_size
    · have h3 : ¬ ((payload.length : Int) ≠ toInt32 (msg_size : Int)) := by
        rw [h2]; exact not_not.mpr hm
      rw [if_neg h3, run_proc_recv_some 0 _ _ (world_size - 1) MAGIC_ID _ _
        ⟨world_size - 1, 0, MAGIC_ID, payload⟩ (by simp [Message.matches]) (by simp [hm])]
      simp [run_proc, hm]
    · have h3 : (payload.length : Int) ≠ toInt32 (msg_size : Int) := h2.mpr hm
      rw [if_pos h3]
      simp [run_proc, hm]
  · rw [round_trip_msg_size_func_relay _ _ _ _ _ h0 hn]
    simp only [h0, if_false]
    rw [run_proc_probe_some world_rank (world_rank - 1) MAGIC_ID _ _
      ⟨world_rank - 1, world_rank, MAGIC_ID, payload⟩ (by simp [Message.matches])]
    simp only [h1]
    by_cases hm : payload.length = msg_size
    · have h3 : ¬ ((payload.length : Int) ≠ toInt32 (msg_size : Int)) := by
        rw [h2]; exact not_not.mpr hm
      rw [if_neg h3, run_proc_recv_some world_rank _ _ (world_rank - 1) MAGIC_ID _ _
        ⟨world_rank - 1, world_rank, MAGIC_ID, payload⟩ (by simp [Message.matches])
        (by simp [hm])]
      simp [run_proc, hm]
    · have h3 : (payload.length : Int) ≠ toInt32 (msg_size : Int) := h2.mpr hm
      rw [if_pos h3]
      simp [run_proc, hm]

/-! ## The statistics -/

theorem max_loop_ge (x : Nat → ℚ) (n : Nat) (init : ℚ) :
    init ≤ (List.range n).foldl (fun max i => if x i > max then x i else max) init ∧
    ∀ i, i < n → x i ≤ (List.range n).foldl (fun max i => if x i > max then x i else max) init := by
  induction n with
  | zero => simp
  | succ n ih =>
    simp only [List.range_succ, List.foldl_append, List.foldl_cons, List.foldl_nil]
    obtain ⟨h1, h2⟩ := ih
    constructor
    · split
      · next h => exact le_trans h1 (le_of_lt h)
      · exact h1
    · intro i hi
      rcases Nat.lt_succ_iff_lt_or_eq.mp hi with h | h
      · split
        · next hgt => exact le_trans (h2 i h) (le_of_lt hgt)
        · exact h2 i h
      · subst h
        split
        · exact le_refl _
        · next hgt => exact not_lt.mp hgt

theorem min_loop_le (x : Nat → ℚ) (n : Nat) (init : ℚ) :
    (List.range n).foldl (fun min i => if x i < min then x i else min) init ≤ init ∧
    ∀ i, i < n → (List.range n).foldl (fun min i => if x i < min then x i else min) init ≤ x i := by
  induction n with
  | zero => simp
  | succ n ih =>
    simp only [List.range_succ, List.foldl_append, List.foldl_cons, List.foldl_nil]
    obtain ⟨h1, h2⟩ := ih
    constructor
    · split
      · next h => exact le_trans (le_of_lt h) h1
      · exact h1
    · intro i hi
      rcases Nat.lt_succ_iff_lt_or_eq.mp hi with h | h
      · split
        · next hgt => exact le_trans (le_of_lt hgt) (h2 i h)
        · exact h2 i h
      · subst h
        split
        · exact le_refl _
        · next hgt => exact not_lt.mp hgt

theorem gsl_stats_max_ge (data : List ℚ) (stride n i : Nat) (hi : i < n) :
    strided data stride i ≤ gsl_stats_max data stride n :=
  (max_loop_ge (strided data stride) n (strided data stride 0)).2 i hi

theorem gsl_stats_min_le (data : List ℚ) (stride n i : Nat) (hi : i < n) :
    gsl_stats_min data stride n ≤ strided data stride i :=
  (min_loop_le (strided data stride) n (strided data stride 0)).2 i hi

theorem mean_loop_bounds (x : Nat → ℚ) (lo hi : ℚ) (n : Nat)
    (hx : ∀ i, i < n + 1 → lo ≤ x i ∧ x i ≤ hi) :
    lo ≤ (List.range (n + 1)).foldl (fun mean i => mean + (x i - mean) / ((i : ℚ) + 1)) 0 ∧
    (List.range (n + 1)).foldl (fun mean i => mean + (x i - mean) / ((i : ℚ) + 1)) 0 ≤ hi := by
  induction n with
  | zero =>
    have := hx 0 (by omega)
    simpa [List.range_succ] using this
  | succ n ih =>
    obtain ⟨h1, h2⟩ := ih (fun i hi => hx i (by omega))
    obtain ⟨h3, h4⟩ := hx (n + 1) (by omega)
    rw [List.range_succ, List.foldl_append]
    simp only [List.foldl_cons, List.foldl_nil]
    generalize (List.range (n + 1)).foldl (fun mean i => mean + (x i - mean) / ((i : ℚ) + 1)) 0
      = mean at h1 h2 ⊢
    have hpos : (0 : ℚ) < ((n + 1 : ℕ) : ℚ) + 1 := by positivity
    have hn0 : (0 : ℚ) ≤ ((n + 1 : ℕ) : ℚ) := by positivity
    constructor
    · rw [← sub_nonneg]
      have : mean + (x (n + 1) - mean) / (((n + 1 : ℕ) : ℚ) + 1) - lo
          = (((n + 1 : ℕ) : ℚ) * (mean - lo) + (x (n + 1) - lo)) / (((n + 1 : ℕ) : ℚ) + 1) := by
        field_simp
        ring
      rw [this]
      apply div_nonneg _ (le_of_lt hpos)
      have := mul_nonneg hn0 (sub_nonneg.mpr h1)
      linarith
    · rw [← sub_nonneg]
      have : hi - (mean + (x (n + 1) - mean) / (((n + 1 : ℕ) : ℚ) + 1))
          = (((n + 1 : ℕ) : ℚ) * (hi - mean) + (hi - x (n + 1))) / (((n + 1 : ℕ) : ℚ) + 1) := by
        field_simp
        ring
      rw [this]
      apply div_nonneg _ (le_of_lt hpos)
      have := mul_nonneg hn0 (sub_nonneg.mpr h2)
      linarith

theorem gsl_sort_sorted (times : List ℚ) (nr_runs : Nat) (hlen : times.length = nr_runs) :
    (gsl_sort times nr_runs).Sorted (fun a b => a ≤ b) := by
  unfold gsl_sort
  rw [List.drop_of_length_le (by omega), List.append_nil]
  exact List.sorted_insertionSort _ _

theorem stats5_order (data : List ℚ) (nr_runs : Nat) (ht : 1 ≤ nr_runs) :
    gsl_stats_min data 1 nr_runs ≤ gsl_stats_median_from_sorted_data data 1 nr_runs ∧
    gsl_stats_median_from_sorted_data data 1 nr_runs ≤ gsl_stats_max data 1 nr_runs ∧
    gsl_stats_min data 1 nr_runs ≤ gsl_stats_mean data 1 nr_runs ∧
    gsl_stats_mean data 1 nr_runs ≤ gsl_stats_max data 1 nr_runs := by
  have hmax := fun i hi => gsl_stats_max_ge data 1 nr_runs i hi
  have hmin := fun i hi => gsl_stats_min_le data 1 nr_runs i hi
  have hl : (nr_runs - 1) / 2 < nr_runs := by omega
  have hr : nr_runs / 2 < nr_runs := by omega
  have hn : nr_runs ≠ 0 := by omega
  obtain ⟨n, rfl⟩ : ∃ n, nr_runs = n + 1 := ⟨nr_runs - 1, by omega⟩
  have hmean := mean_loop_bounds (strided data 1) (gsl_stats_min data 1 (n + 1))
    (gsl_stats_max data 1 (n + 1)) n (fun i hi => ⟨hmin i hi, hmax i hi⟩)
  refine ⟨?_, ?_, hmean.1, hmean.2⟩
  · unfold gsl_stats_median_from_sorted_data
    simp only [hn, if_false]
    split
    · exact hmin _ hl
    · have := hmin _ hl
      have := hmin _ hr
      linarith
  · unfold gsl_stats_median_from_sorted_data
    simp only [hn, if_false]
    split
    · exact hmax _ hl
    · have := hmax _ hl
      have := hmax _ hr
      linarith


/-- Claim C9: for `nr_runs ≥ 1` samples per array, each of the three arrays is
ascending after `gsl_sort`, and in the vector `send_bf` each group of five
(send, receive, probe) satisfies min ≤ median ≤ max and min ≤ mean ≤ max
(entries `5k+1`, `5k+3`, `5k`, `5k+2`). -/
theorem reducer_sorted_and_ordered (times_snd times_rcv times_prb : List ℚ) (nr_runs : Nat)
    (ht : 1 ≤ nr_runs) (hsnd : times_snd.length = nr_runs) (hrcv : times_rcv.length = nr_runs)
    (hprb : times_prb.length = nr_runs) :
    (gsl_sort times_snd nr_runs).Sorted (fun a b => a ≤ b) ∧
    (gsl_sort times_rcv nr_runs).Sorted (fun a b => a ≤ b) ∧
    (gsl_sort times_prb nr_runs).Sorted (fun a b => a ≤ b) ∧
    ∀ k, k < 3 →
      let v := send_bf times_snd times_rcv times_prb nr_runs
      v.getD (5 * k + 1) 0 ≤ v.getD (5 * k + 3) 0 ∧ v.getD (5 * k + 3) 0 ≤ v.getD (5 * k) 0 ∧
      v.getD (5 * k + 1) 0 ≤ v.getD (5 * k + 2) 0 ∧ v.getD (5 * k + 2) 0 ≤ v.getD (5 * k) 0 := by
  refine ⟨gsl_sort_sorted _ _ hsnd, gsl_sort_sorted _ _ hrcv, gsl_sort_sorted _ _ hprb, ?_⟩
  intro k hk
  have h1 := stats5_order (gsl_sort times_snd nr_runs) nr_runs ht
  have h2 := stats5_order (gsl_sort times_rcv nr_runs) nr_runs ht
  have h3 := stats5_order (gsl_sort times_prb nr_runs) nr_runs ht
  interval_cases k
  · simpa [send_bf, stats5] using h1
  · simpa [send_bf, stats5] using h2
  · simpa [send_bf, stats5] using h3

theorem strided_gather (send_bfs : List (List ℚ)) (k : Nat) (hk : k < 15)
    (hlen : ∀ v ∈ send_bfs, v.length = 15) :
    ∀ i, i < send_bfs.length →
      strided ((MPI_Gather send_bfs).drop k) 15 i = (send_bfs.getD i []).getD k 0 := by
  induction send_bfs with
  | nil => intro i hi; simp at hi
  | cons v rest ih =>
    intro i hi
    have hv : v.length = 15 := hlen v (List.mem_cons_self _ _)
    have hrest := ih (fun w hw => hlen w (List.mem_cons_of_mem _ hw))
    have htake : v.take 15 = v := List.take_of_length_le (by omega)
    cases i with
    | zero =>
      simp only [strided, MPI_Gather, List.map_cons, List.flatten_cons, htake, Nat.zero_mul,
        List.getD_eq_getElem?_getD, List.getElem?_drop, Nat.add_zero, List.getElem?_cons_zero,
        Option.getD_some]
      rw [List.getElem?_append_left (by omega)]
    | succ i =>
      have := hrest i (by simpa using hi)
      simp only [strided, MPI_Gather, List.getD_eq_getElem?_getD, List.getElem?_drop] at this
      simp only [strided, MPI_Gather, List.map_cons, List.flatten_cons, htake,
        List.getD_eq_getElem?_getD, List.getElem?_drop, List.getElem?_cons_succ]
      rw [List.getElem?_append_right (by omega)]
      have hidx : k + (i + 1) * 15 - v.length = k + i * 15 := by omega
      rw [hidx]
      exact this

/-- Claim C8: for gathered vectors of 15 values, the three maxima the
coordinator prints are at least the entries 0, 5 and 10 of every process, and
the three minima are at most the entries 1, 6 and 11 of every process. -/
theorem cluster_extremes_bound (send_bfs : List (List ℚ)) (pkg_size i : Nat)
    (hlen : ∀ v ∈ send_bfs, v.length = 15) (hi : i < send_bfs.length) :
    (send_bfs.getD i []).getD 0 0
        ≤ (coordinator_line pkg_size send_bfs.length (MPI_Gather send_bfs)).snd_max ∧
    (coordinator_line pkg_size send_bfs.length (MPI_Gather send_bfs)).snd_min
        ≤ (send_bfs.getD i []).getD 1 0 ∧
    (send_bfs.getD i []).getD 5 0
        ≤ (coordinator_line pkg_size send_bfs.length (MPI_Gather send_bfs)).rcv_max ∧
    (coordinator_line pkg_size send_bfs.length (MPI_Gather send_bfs)).rcv_min
        ≤ (send_bfs.getD i []).getD 6 0 ∧
    (send_bfs.getD i []).getD 10 0
        ≤ (coordinator_line pkg_size send_bfs.length (MPI_Gather send_bfs)).prb_max ∧
    (coordinator_line pkg_size send_bfs.length (MPI_Gather send_bfs)).prb_min
        ≤ (send_bfs.getD i []).getD 11 0 := by
  have hg := fun k hk => strided_gather send_bfs k hk hlen i hi
  refine ⟨?_, ?_, ?_, ?_, ?_, ?_⟩
  · rw [← hg 0 (by omega)]; exact gsl_stats_max_ge _ _ _ _ hi
  · rw [← hg 1 (by omega)]; exact gsl_stats_min_le _ _ _ _ hi
  · rw [← hg 5 (by omega)]; exact gsl_stats_max_ge _ _ _ _ hi
  · rw [← hg 6 (by omega)]; exact gsl_stats_min_le _ _ _ _ hi
  · rw [← hg 10 (by omega)]; exact gsl_stats_max_ge _ _ _ _ hi
  · rw [← hg 11 (by omega)]; exact gsl_stats_min_le _ _ _ _ hi

/-! ## Instances of the theorems with hypotheses -/

theorem ring_round_trip_integrity_witness :
    2 ≤ 3 ∧ 3 ≤ 4 ∧
    ∃ net E, ring_trial 3 4 7 (fun _ => 0) = some net ∧ net.mail = [] ∧
      net.log.head? = some (Event.sent ⟨0, 1 % 3, MAGIC_ID, E⟩) ∧
      net.log.getLast? = some (Event.received 0 ⟨3 - 1, 0, MAGIC_ID, E⟩ E) ∧
      (∀ m, Event.sent m ∈ net.log → m.payload = E) ∧
      (∀ r m data, Event.received r m data ∈ net.log → m.payload = E ∧ data = E) ∧
      E.length = 4 ∧ E[0]? = some MAGIC_START ∧ E[4 - 1]? = some MAGIC_END ∧
      E[1]? = some 7 :=
  ⟨by decide, by decide,
    ring_round_trip_integrity 3 4 7 (fun _ => 0) (by decide) (by decide)⟩

theorem round_trip_func_transfers_witness :
    2 ≤ 3 ∧ 1 < 3 ∧ 3 ≤ 4 ∧
    ((round_trip_func 1 3 4 7 (fun _ => 0)).calls id 4
        = (if 1 = 0 then [Call.send ((1 + 1) % 3), Call.recv ((1 + 3 - 1) % 3)]
          else [Call.recv ((1 + 3 - 1) % 3), Call.send ((1 + 1) % 3)]) ∧
    (∀ q, q < 3 → ((q + 1) % 3 = 1 ↔ q = (1 + 3 - 1) % 3)) ∧
    ∃ net, ring_trial 3 4 7 (fun _ => 0) = some net ∧
      (net.log.filter Event.is_sent).length = 3 ∧
      (net.log.filter Event.is_received).length = 3) :=
  ⟨by decide, by decide, by decide,
    round_trip_func_transfers 1 3 4 7 (fun _ => 0) id 4 (by decide) (by decide) (by decide)⟩

theorem size_probe_mismatch_exits_witness :
    1 < 3 ∧ 3 ≤ 4 ∧ 4 < 2 ^ 32 ∧ [5, 6, 7].length < 2 ^ 31 ∧
    (((run_proc 1 (round_trip_msg_size_func 1 3 4 7 (fun _ => 0))
        ⟨[incoming 1 3 [5, 6, 7]], []⟩).1 = Proc.exit EXIT_FAILURE
      ↔ [5, 6, 7].length ≠ 4) ∧
     ([5, 6, 7].length = 4 →
      (run_proc 1 (round_trip_msg_size_func 1 3 4 7 (fun _ => 0))
        ⟨[incoming 1 3 [5, 6, 7]], []⟩).1 = Proc.ret ()) ∧
     ([5, 6, 7].length ≠ 4 →
      (run_proc 1 (round_trip_msg_size_func 1 3 4 7 (fun _ => 0))
        ⟨[incoming 1 3 [5, 6, 7]], []⟩).2.log
        = (if 1 = 0 then
            [Event.sent ⟨0, 1 % 3, MAGIC_ID, (originator_data 4 7 (fun _ => 0)).take 4⟩]
          else [])
          ++ [Event.probed 1 (incoming 1 3 [5, 6, 7]) ([5, 6, 7] : List Int).length,
              Event.printed ⟨1, ([5, 6, 7] : List Int).length, 4⟩])) :=
  ⟨by decide, by decide, by decide, by decide,
    size_probe_mismatch_exits 1 3 4 7 (fun _ => 0) [5, 6, 7] (by decide) (by decide)
      (by decide) (by decide)⟩

theorem cluster_extremes_bound_witness :
    (∀ v ∈ [[1, 1, 1, 1, 0, 2, 2, 2, 2, 0, 2, 2, 2, 2, 0],
            [1, 1, 1, 1, 0, 2, 2, 2, 2, 0, 5, 1, 3, 3, (8 : ℚ)]], v.length = 15) ∧
    1 < [[1, 1, 1, 1, 0, 2, 2, 2, 2, 0, 2, 2, 2, 2, 0],
         [1, 1, 1, 1, 0, 2, 2, 2, 2, 0, 5, 1, 3, 3, (8 : ℚ)]].length ∧
    (5 : ℚ) ≤ (coordinator_line 16 2
        (MPI_Gather [[1, 1, 1, 1, 0, 2, 2, 2, 2, 0, 2, 2, 2, 2, 0],
                     [1, 1, 1, 1, 0, 2, 2, 2, 2, 0, 5, 1, 3, 3, 8]])).prb_max ∧
    (coordinator_line 16 2
        (MPI_Gather [[1, 1, 1, 1, 0, 2, 2, 2, 2, 0, 2, 2, 2, 2, 0],
                     [1, 1, 1, 1, 0, 2, 2, 2, 2, 0, 5, 1, 3, 3, 8]])).prb_min ≤ (1 : ℚ) :=
  ⟨by simp, by decide,
    (cluster_extremes_bound
      [[1, 1, 1, 1, 0, 2, 2, 2, 2, 0, 2, 2, 2, 2, 0],
       [1, 1, 1, 1, 0, 2, 2, 2, 2, 0, 5, 1, 3, 3, 8]] 16 1 (by simp) (by decide)).2.2.2.2.1,
    (cluster_extremes_bound
      [[1, 1, 1, 1, 0, 2, 2, 2, 2, 0, 2, 2, 2, 2, 0],
       [1, 1, 1, 1, 0, 2, 2, 2, 2, 0, 5, 1, 3, 3, 8]] 16 1 (by simp) (by decide)).2.2.2.2.2⟩

theorem reducer_sorted_and_ordered_witness :
    1 ≤ 3 ∧ ([3, 1, 2] : List ℚ).length = 3 ∧ ([4, 4, 4] : List ℚ).length = 3 ∧
    ([0, 9, 1] : List ℚ).length = 3 ∧
    ((gsl_sort [3, 1, 2] 3).Sorted (fun a b => a ≤ b) ∧
     (gsl_sort [4, 4, 4] 3).Sorted (fun a b => a ≤ b) ∧
     (gsl_sort [0, 9, 1] 3).Sorted (fun a b => a ≤ b) ∧
     ∀ k, k < 3 →
       let v := send_bf [3, 1, 2] [4, 4, 4] [0, 9, 1] 3
       v.getD (5 * k + 1) 0 ≤ v.getD (5 * k + 3) 0 ∧ v.getD (5 * k + 3) 0 ≤ v.getD (5 * k) 0 ∧
       v.getD (5 * k + 1) 0 ≤ v.getD (5 * k + 2) 0 ∧ v.getD (5 * k + 2) 0 ≤ v.getD (5 * k) 0) :=
  ⟨by decide, by decide, by decide, by decide,
    reducer_sorted_and_ordered [3, 1, 2] [4, 4, 4] [0, 9, 1] 3 (by decide) (by decide)
      (by decide) (by decide)⟩

end MpiTiming
